import Mathlib

/-!
# getmetobs: a shallow embedding of `main.go`

The program builds a URL from three positional arguments and three flag
values, performs one HTTP GET, checks the status code, ensures the output
directory, creates the output file and copies the response body into it.

The embedding is explicit state passing.  Everything the program cannot
decide by itself (what the server answers, whether the operating system
lets a directory or a file be created, whether the copy is interrupted) is
an input, collected in `Env`.  The file system is a value of type `FS`; the
sequence of library calls the program performs is recorded as a list of
`Event`s, in program order.

Go semantics that matter here:
* `os.Exit` terminates the process at once; deferred calls do not run;
* deferred calls run, last registered first, when the function returns;
* indexing a slice out of range panics (exit status 2);
* `fmt.Sprintf` with `%s`/`%v` and a string operand copies the operand.
-/

namespace Getmetobs

/-! ## Library models: `fmt`, `path/filepath` -/

/-- Operand list left over after the format is exhausted, as `fmt` renders
it inside `%!(EXTRA ...)`; every operand of this program is a string. -/
def extraOperands : List String → List Char
  | [] => []
  | [a] => "string=".data ++ a.data
  | a :: b :: rest => "string=".data ++ a.data ++ ", ".data ++ extraOperands (b :: rest)

/-- Single left-to-right pass of `fmt.Sprintf` over the format, for the
verbs the program uses (`%s`, `%v`, and the literal `%%`) with string
operands.  An operand is copied as it is and is never rescanned. -/
def sprintfAux : List Char → List String → List Char
  | [], [] => []
  | [], a :: as => "%!(EXTRA ".data ++ extraOperands (a :: as) ++ [')']
  | '%' :: '%' :: fmt, as => '%' :: sprintfAux fmt as
  | '%' :: 's' :: fmt, a :: as => a.data ++ sprintfAux fmt as
  | '%' :: 'v' :: fmt, a :: as => a.data ++ sprintfAux fmt as
  | '%' :: 's' :: fmt, [] => "%!s(MISSING)".data ++ sprintfAux fmt []
  | '%' :: 'v' :: fmt, [] => "%!v(MISSING)".data ++ sprintfAux fmt []
  | c :: fmt, as => c :: sprintfAux fmt as

/-- Model of `fmt.Sprintf(format, operands...)` for string operands. -/
def sprintf (format : String) (operands : List String) : String :=
  String.mk (sprintfAux format.data operands)

/-- Split a path at every `/`. -/
def splitSlash : List Char → List (List Char)
  | [] => [[]]
  | c :: cs =>
    if c = '/' then [] :: splitSlash cs
    else
      match splitSlash cs with
      | [] => [[c]]
      | x :: xs => (c :: x) :: xs

/-- One element of the lexical clean-up of `filepath.Clean`; `out` holds the
elements kept so far, the last one first. -/
def cleanStep (rooted : Bool) (out : List (List Char)) (el : List Char) : List (List Char) :=
  if el = [] ∨ el = ['.'] then out
  else if el = ['.', '.'] then
    match out with
    | [] => if rooted then [] else [el]
    | top :: rest => if top = ['.', '.'] then el :: out else rest
  else el :: out

/-- Model of `filepath.Clean` on a Unix system. -/
def filepathClean (path : String) : String :=
  match path.data with
  | [] => "."
  | c :: cs =>
    let rooted : Bool := c = '/'
    let kept := ((splitSlash (c :: cs)).foldl (cleanStep rooted) []).reverse
    let body := List.intercalate ['/'] kept
    let out := if rooted then '/' :: body else body
    if out = [] then "." else String.mk out

/-- Model of `filepath.Join(a, b)` on a Unix system: the non-empty elements
joined with `/`, then cleaned; the empty string when both are empty. -/
def filepathJoin (a b : String) : String :=
  if a ≠ "" then filepathClean (a ++ "/" ++ b)
  else if b ≠ "" then filepathClean b
  else ""

/-! ## Data model -/

/-- One byte of a response body or of a file. -/
abbrev Byte := Fin 256

/-- The three package-level flag variables `outputPath`, `version`, `ext`. -/
structure Config where
  outputPath : String
  version : String
  ext : String
  deriving DecidableEq, Repr

/-- Flag defaults registered in `init`. -/
def defaultConfig : Config := { outputPath := ".", version := "1.0", ext := "csv" }

/-- The part of `http.Response` the program reads. -/
structure Response where
  status : String
  statusCode : Nat
  body : List Byte
  deriving DecidableEq, Repr

/-- The outside world during one invocation.
* `httpGet url`: the result of `http.Get(url)`, an error text or a response;
* `mkdirAll path`: the error of `os.MkdirAll(path, 0755)`, if it fails;
* `create path`: the error of `os.Create(path)`, if it fails;
* `copy`: `none` when `io.Copy` reaches the end of the body, `some (n, err)`
  when it fails with `err` after at most `n` bytes were written.
A call that fails is taken to leave the file system as it was. -/
structure Env where
  httpGet : String → Except String Response
  mkdirAll : String → Option String
  create : String → Option String
  copy : Option (Nat × String)

/-- The file system: which paths are directories and what each regular
file contains. -/
structure FS where
  dirs : String → Bool
  files : String → Option (List Byte)

/-- Effect of a successful `os.MkdirAll(path, perm)`: `path` is a directory. -/
def FS.mkdirAll (fs : FS) (path : String) : FS :=
  { fs with dirs := Function.update fs.dirs path true }

/-- Effect of a successful `os.Create(path)`: the file exists and is empty
(created if missing, truncated otherwise). -/
def FS.create (fs : FS) (path : String) : FS :=
  { fs with files := Function.update fs.files path (some []) }

/-- Effect of writing `bytes` at offset `off` of `path`: the bytes replace
what was stored there, and the rest of the old content stays. -/
def FS.writeAt (fs : FS) (path : String) (off : Nat) (bytes : List Byte) : FS :=
  let old := (fs.files path).getD []
  let new := old.take off ++ List.replicate (off - old.length) 0 ++ bytes
    ++ old.drop (off + bytes.length)
  { fs with files := Function.update fs.files path (some new) }

/-- Library calls of the program, in the order they are made. -/
inductive Event where
  | httpGet (url : String)
  | mkdirAll (path : String) (perm : Nat)
  | create (path : String)
  | write (path : String) (count : Nat)
  | closeFile (path : String)
  | closeBody
  | print (text : String)
  | exit (code : Nat)
  deriving DecidableEq, Repr

/-- Network calls. -/
def Event.isNetwork : Event → Bool
  | .httpGet _ => true
  | _ => false

/-- Calls that create or change something in the file system. -/
def Event.isFileSystem : Event → Bool
  | .mkdirAll _ _ => true
  | .create _ => true
  | .write _ _ => true
  | _ => false

/-- How a Go function stopped: it returned, the process was ended by
`os.Exit`, or the runtime panicked. -/
inductive Status where
  | returned
  | exited (code : Nat)
  | panicked (msg : String)
  deriving DecidableEq, Repr

/-- Result of executing a piece of the program. -/
structure Outcome where
  fs : FS
  trace : List Event
  status : Status

/-- Exit status of the process: 0 when `main` returns, the argument of
`os.Exit`, 2 after a runtime panic. -/
def Outcome.exitCode (o : Outcome) : Nat :=
  match o.status with
  | .returned => 0
  | .exited code => code
  | .panicked _ => 2

/-- Texts printed during the execution, in order. -/
def Outcome.stdout (o : Outcome) : List String :=
  o.trace.filterMap fun e =>
    match e with
    | .print text => some text
    | _ => none

/-! ## The program -/

/-- The request URL built at the top of `run`. -/
def fullURL (cfg : Config) (parameter station period : String) : String :=
  sprintf "https://opendata-download-metobs.smhi.se/api/version/%s/parameter/%s/station/%s/period/%s/data.%s"
    [cfg.version, parameter, station, period, cfg.ext]

/-- The file name built in `run`. -/
def fileName (ext parameter station period : String) : String :=
  sprintf "smhi_metobs_%s_%s_%s.%s" [parameter, station, period, ext]

/-- The `outputFilePath` of `run`. -/
def outputFilePath (cfg : Config) (parameter station period : String) : String :=
  filepathJoin cfg.outputPath (fileName cfg.ext parameter station period)

/-- The line printed at the end of a successful `run`. -/
def successMessage (path : String) : String :=
  sprintf "File downloaded successfully: %s\n" [path]

/-- The function `run` of `main.go`.  Every `os.Exit(1)` ends the trace: the
two deferred calls, `out.Close()` and `resp.Body.Close()`, run only when the
function returns, the one registered last first. -/
def run (cfg : Config) (args : List String) (env : Env) (fs : FS) : Outcome :=
  match args[0]?, args[1]?, args[2]? with
  | some parameter, some station, some period =>
    let url := fullURL cfg parameter station period
    match env.httpGet url with
    | .error err =>
      { fs := fs
        trace := [.httpGet url, .print (sprintf "Error downloading file: %v\n" [err]), .exit 1]
        status := .exited 1 }
    | .ok resp =>
      if resp.statusCode ≠ 200 then
        { fs := fs
          trace := [.httpGet url,
            .print (sprintf "Bad status: %s\nCheck argument values\n" [resp.status]), .exit 1]
          status := .exited 1 }
      else
        match env.mkdirAll cfg.outputPath with
        | some err =>
          { fs := fs
            trace := [.httpGet url, .mkdirAll cfg.outputPath 0o755,
              .print (sprintf "Error creating output directory: %v\n" [err]), .exit 1]
            status := .exited 1 }
        | none =>
          let fs1 := fs.mkdirAll cfg.outputPath
          let path := outputFilePath cfg parameter station period
          match env.create path with
          | some err =>
            { fs := fs1
              trace := [.httpGet url, .mkdirAll cfg.outputPath 0o755, .create path,
                .print (sprintf "Error creating output file: %v\n" [err]), .exit 1]
              status := .exited 1 }
          | none =>
            let fs2 := fs1.create path
            match env.copy with
            | some (n, err) =>
              let written := resp.body.take n
              { fs := fs2.writeAt path 0 written
                trace := [.httpGet url, .mkdirAll cfg.outputPath 0o755, .create path,
                  .write path written.length,
                  .print (sprintf "Error writing to file: %v\n" [err]), .exit 1]
                status := .exited 1 }
            | none =>
              { fs := fs2.writeAt path 0 resp.body
                trace := [.httpGet url, .mkdirAll cfg.outputPath 0o755, .create path,
                  .write path resp.body.length,
                  .print (successMessage path), .closeFile path, .closeBody]
                status := .returned }
  | _, _, _ =>
    { fs := fs, trace := [], status := .panicked "index out of range" }

/-- The validator `cobra.ExactArgs(n)` installed as `Args` of `rootCmd`, as
the cobra library documents it: an error unless there are exactly `n`
positional arguments. -/
def exactArgs (n : Nat) (args : List String) : Except String Unit :=
  if args.length ≠ n then
    .error ("accepts " ++ toString n ++ " arg(s), received " ++ toString args.length)
  else .ok ()

/-- The call `rootCmd.Execute()` after flag parsing: the positional
arguments are validated by `Args`; `Run` is called only when the validator
accepts them, otherwise its error is returned.  What cobra itself writes to
standard error on a rejected command line is not recorded. -/
def execute (cfg : Config) (args : List String) (env : Env) (fs : FS) : Except String Outcome :=
  match exactArgs 3 args with
  | .error err => .error err
  | .ok _ => .ok (run cfg args env fs)

/-- The function `main` of `main.go`, on the positional arguments and the
flag values left by flag parsing. -/
def main (cfg : Config) (args : List String) (env : Env) (fs : FS) : Outcome :=
  match execute cfg args env fs with
  | .error err => { fs := fs, trace := [.print (err ++ "\n"), .exit 1], status := .exited 1 }
  | .ok o => o

/-- Outcome of a failing path of `run`: the calls made up to and including
the failed step, then the message and `os.Exit(1)`. -/
def failure (fs : FS) (calls : List Event) (text : String) : Outcome :=
  { fs := fs, trace := calls ++ [.print text, .exit 1], status := .exited 1 }

/-- Every step of an invocation succeeds: three positional arguments, the
GET succeeds, the status is 200, the directory is ensured, the file is
created, the copy completes. -/
def AllStepsSucceed (cfg : Config) (args : List String) (env : Env) : Prop :=
  ∃ parameter station period resp,
    args = [parameter, station, period]
    ∧ env.httpGet (fullURL cfg parameter station period) = .ok resp
    ∧ resp.statusCode = 200
    ∧ env.mkdirAll cfg.outputPath = none
    ∧ env.create (outputFilePath cfg parameter station period) = none
    ∧ env.copy = none

/-- File-system order: everything that exists in the first exists in the second. -/
def FS.Keeps (fs fs2 : FS) : Prop :=
  (∀ x, (fs.files x).isSome → (fs2.files x).isSome) ∧ (∀ x, fs.dirs x = true → fs2.dirs x = true)

/-! ## Sample environments -/

/-- A server answering 200 with a three-byte body, and an operating system
that refuses nothing. -/
def okEnv : Env :=
  { httpGet := fun _ => .ok { status := "200 OK", statusCode := 200, body := [104, 105, 10] }
    mkdirAll := fun _ => none
    create := fun _ => none
    copy := none }

/-- A server answering 404. -/
def notFoundEnv : Env :=
  { okEnv with
    httpGet := fun _ => .ok { status := "404 Not Found", statusCode := 404, body := [] } }

/-- The copy breaks after two bytes. -/
def brokenCopyEnv : Env :=
  { okEnv with copy := some (2, "write: no space left on device") }

/-- The output file cannot be created. -/
def createDeniedEnv : Env :=
  { okEnv with create := fun _ => some "open: permission denied" }

/-- An empty file system. -/
def emptyFS : FS := { dirs := fun _ => false, files := fun _ => none }

/-- A file system in which the output file of the sample request already
exists with five bytes. -/
def staleFS : FS :=
  { dirs := fun p => p = "."
    files := fun p => if p = "smhi_metobs_1_159880_latest-day.csv" then some [1, 2, 3, 4, 5] else none }

/-! ## Formatting lemmas -/

theorem sprintf_fullURL (version parameter station period ext : String) :
    sprintf "https://opendata-download-metobs.smhi.se/api/version/%s/parameter/%s/station/%s/period/%s/data.%s"
      [version, parameter, station, period, ext]
    = "https://opendata-download-metobs.smhi.se/api/version/" ++ version ++ "/parameter/"
        ++ parameter ++ "/station/" ++ station ++ "/period/" ++ period ++ "/data." ++ ext := by
  apply String.ext
  simp [sprintf, sprintfAux]

theorem fileName_eq (ext parameter station period : String) :
    fileName ext parameter station period
      = "smhi_metobs_" ++ parameter ++ "_" ++ station ++ "_" ++ period ++ "." ++ ext := by
  apply String.ext
  simp [fileName, sprintf, sprintfAux]

theorem successMessage_eq (path : String) :
    successMessage path = "File downloaded successfully: " ++ path ++ "\n" := by
  apply String.ext
  simp [successMessage, sprintf, sprintfAux]

/-! ## The six paths through `run` -/

theorem run_get_error (cfg : Config) (parameter station period : String) (env : Env) (fs : FS)
    (err : String)
    (hget : env.httpGet (fullURL cfg parameter station period) = .error err) :
    run cfg [parameter, station, period] env fs
      = failure fs [.httpGet (fullURL cfg parameter station period)]
          (sprintf "Error downloading file: %v\n" [err]) := by
  simp [run, failure, hget]

theorem run_bad_status (cfg : Config) (parameter station period : String) (env : Env) (fs : FS)
    (resp : Response)
    (hget : env.httpGet (fullURL cfg parameter station period) = .ok resp)
    (hcode : resp.statusCode ≠ 200) :
    run cfg [parameter, station, period] env fs
      = failure fs [.httpGet (fullURL cfg parameter station period)]
          (sprintf "Bad status: %s\nCheck argument values\n" [resp.status]) := by
  simp [run, failure, hget, hcode]

theorem run_mkdir_error (cfg : Config) (parameter station period : String) (env : Env) (fs : FS)
    (resp : Response) (err : String)
    (hget : env.httpGet (fullURL cfg parameter station period) = .ok resp)
    (hcode : resp.statusCode = 200)
    (hdir : env.mkdirAll cfg.outputPath = some err) :
    run cfg [parameter, station, period] env fs
      = failure fs [.httpGet (fullURL cfg parameter station period),
            .mkdirAll cfg.outputPath 0o755]
          (sprintf "Error creating output directory: %v\n" [err]) := by
  simp [run, failure, hget, hcode, hdir]

theorem run_create_error (cfg : Config) (parameter station period : String) (env : Env) (fs : FS)
    (resp : Response) (err : String)
    (hget : env.httpGet (fullURL cfg parameter station period) = .ok resp)
    (hcode : resp.statusCode = 200)
    (hdir : env.mkdirAll cfg.outputPath = none)
    (hcreate : env.create (outputFilePath cfg parameter station period) = some err) :
    run cfg [parameter, station, period] env fs
      = failure (fs.mkdirAll cfg.outputPath)
          [.httpGet (fullURL cfg parameter station period), .mkdirAll cfg.outputPath 0o755,
            .create (outputFilePath cfg parameter station period)]
          (sprintf "Error creating output file: %v\n" [err]) := by
  simp [run, failure, hget, hcode, hdir, hcreate]

theorem run_copy_error (cfg : Config) (parameter station period : String) (env : Env) (fs : FS)
    (resp : Response) (n : Nat) (err : String)
    (hget : env.httpGet (fullURL cfg parameter station period) = .ok resp)
    (hcode : resp.statusCode = 200)
    (hdir : env.mkdirAll cfg.outputPath = none)
    (hcreate : env.create (outputFilePath cfg parameter station period) = none)
    (hcopy : env.copy = some (n, err)) :
    run cfg [parameter, station, period] env fs
      = failure
          (((fs.mkdirAll cfg.outputPath).create (outputFilePath cfg parameter station period)).writeAt
            (outputFilePath cfg parameter station period) 0 (resp.body.take n))
          [.httpGet (fullURL cfg parameter station period), .mkdirAll cfg.outputPath 0o755,
            .create (outputFilePath cfg parameter station period),
            .write (outputFilePath cfg parameter station period) (resp.body.take n).length]
          (sprintf "Error writing to file: %v\n" [err]) := by
  simp [run, failure, hget, hcode, hdir, hcreate, hcopy]

theorem run_success (cfg : Config) (parameter station period : String) (env : Env) (fs : FS)
    (resp : Response)
    (hget : env.httpGet (fullURL cfg parameter station period) = .ok resp)
    (hcode : resp.statusCode = 200)
    (hdir : env.mkdirAll cfg.outputPath = none)
    (hcreate : env.create (outputFilePath cfg parameter station period) = none)
    (hcopy : env.copy = none) :
    run cfg [parameter, station, period] env fs
      = { fs := ((fs.mkdirAll cfg.outputPath).create
                  (outputFilePath cfg parameter station period)).writeAt
                  (outputFilePath cfg parameter station period) 0 resp.body
          trace := [.httpGet (fullURL cfg parameter station period),
            .mkdirAll cfg.outputPath 0o755,
            .create (outputFilePath cfg parameter station period),
            .write (outputFilePath cfg parameter station period) resp.body.length,
            .print (successMessage (outputFilePath cfg parameter station period)),
            .closeFile (outputFilePath cfg parameter station period), .closeBody]
          status := .returned } := by
  simp [run, hget, hcode, hdir, hcreate, hcopy]

/-- After `os.Create` and a write at offset 0 the file holds the written bytes only. -/
theorem files_create_writeAt (fs : FS) (path : String) (bytes : List Byte) :
    ((fs.create path).writeAt path 0 bytes).files path = some bytes := by
  simp [FS.create, FS.writeAt]

/-- C1: for every version, parameter, station, period and ext, the first
call of run is the GET of the template URL with the five strings substituted
as they are, and it is the only network call; nothing about the three
positional strings is checked before. -/
theorem run_requests_template_url (outputPath version ext parameter station period : String)
    (env : Env) (fs : FS) :
    (run ⟨outputPath, version, ext⟩ [parameter, station, period] env fs).trace.head?
        = some (.httpGet ("https://opendata-download-metobs.smhi.se/api/version/" ++ version
            ++ "/parameter/" ++ parameter ++ "/station/" ++ station ++ "/period/" ++ period
            ++ "/data." ++ ext))
      ∧ (run ⟨outputPath, version, ext⟩ [parameter, station, period] env fs).trace.filter
            Event.isNetwork
          = [.httpGet ("https://opendata-download-metobs.smhi.se/api/version/" ++ version
              ++ "/parameter/" ++ parameter ++ "/station/" ++ station ++ "/period/" ++ period
              ++ "/data." ++ ext)]
      ∧ fullURL defaultConfig "1" "159880" "latest-day"
          = "https://opendata-download-metobs.smhi.se/api/version/1.0/parameter/1/station/159880/period/latest-day/data.csv" := by
  have hurl := sprintf_fullURL version parameter station period ext
  refine ⟨?_, ?_, by decide⟩
  all_goals
    simp only [run, fullURL, List.getElem?_cons_zero, List.getElem?_cons_succ, hurl]
    cases env.httpGet _ with
    | error err => simp [Event.isNetwork]
    | ok resp =>
      by_cases hs : resp.statusCode = 200
      · simp only [hs]
        cases env.mkdirAll outputPath with
        | some err => simp [Event.isNetwork]
        | none =>
          simp only []
          cases env.create _ with
          | some err => simp [Event.isNetwork]
          | none => cases env.copy <;> simp [Event.isNetwork]
      · simp [hs, Event.isNetwork]

/-- C2: the file name is "smhi_metobs_" ++ parameter ++ "_" ++ station ++ "_"
++ period ++ "." ++ ext whatever the version, the output directory and the
response are, the output path of run is the output directory joined with
that name, and the sample descriptor gives
"smhi_metobs_1_159880_latest-day.csv". -/
theorem fileName_derivation (outputPath version ext parameter station period : String) :
    fileName ext parameter station period
        = "smhi_metobs_" ++ parameter ++ "_" ++ station ++ "_" ++ period ++ "." ++ ext
      ∧ outputFilePath ⟨outputPath, version, ext⟩ parameter station period
        = filepathJoin outputPath
            ("smhi_metobs_" ++ parameter ++ "_" ++ station ++ "_" ++ period ++ "." ++ ext)
      ∧ (∀ (env : Env) (fs : FS) (path : String),
          Event.create path ∈ (run ⟨outputPath, version, ext⟩ [parameter, station, period] env fs).trace →
          path = filepathJoin outputPath
            ("smhi_metobs_" ++ parameter ++ "_" ++ station ++ "_" ++ period ++ "." ++ ext))
      ∧ fileName "csv" "1" "159880" "latest-day" = "smhi_metobs_1_159880_latest-day.csv" := by
  have hname := fileName_eq ext parameter station period
  refine ⟨hname, by simp [outputFilePath, hname], ?_, by decide⟩
  intro env fs path
  simp only [run, outputFilePath, hname, List.getElem?_cons_zero, List.getElem?_cons_succ]
  cases env.httpGet _ with
  | error err => simp
  | ok resp =>
    by_cases hs : resp.statusCode = 200
    · simp only [hs]
      cases env.mkdirAll outputPath with
      | some err => simp
      | none =>
        simp only []
        cases env.create _ with
        | some err => simp
        | none => cases env.copy <;> simp
    · simp [hs]

/-- C3: when the GET returns status 200 with body b and directory creation,
file creation and copy all succeed, the file at the output directory joined
with the derived file name holds exactly b after run. -/
theorem run_writes_body (cfg : Config) (parameter station period : String) (env : Env) (fs : FS)
    (resp : Response)
    (hget : env.httpGet (fullURL cfg parameter station period) = .ok resp)
    (hcode : resp.statusCode = 200)
    (hdir : env.mkdirAll cfg.outputPath = none)
    (hcreate : env.create (outputFilePath cfg parameter station period) = none)
    (hcopy : env.copy = none) :
    (run cfg [parameter, station, period] env fs).fs.files
        (filepathJoin cfg.outputPath
          ("smhi_metobs_" ++ parameter ++ "_" ++ station ++ "_" ++ period ++ "." ++ cfg.ext))
      = some resp.body := by
  rw [run_success cfg parameter station period env fs resp hget hcode hdir hcreate hcopy,
    ← fileName_eq]
  exact files_create_writeAt _ _ _

/-- Sample run for C3: a five-byte file is replaced by the three-byte body. -/
theorem run_writes_body_witness :
    (run defaultConfig ["1", "159880", "latest-day"] okEnv staleFS).fs.files
        (filepathJoin "."
          ("smhi_metobs_" ++ "1" ++ "_" ++ "159880" ++ "_" ++ "latest-day" ++ "." ++ "csv"))
      = some [104, 105, 10] :=
  run_writes_body defaultConfig "1" "159880" "latest-day" okEnv staleFS
    { status := "200 OK", statusCode := 200, body := [104, 105, 10] } rfl rfl rfl rfl rfl

/-- C4: when the GET yields no 200 response (the transport fails or the
status code is not 200), run exits with status 1, the file system is what it
was, and no call that creates a directory or creates, truncates or writes a
file was made. -/
theorem run_without_200_keeps_fs (cfg : Config) (parameter station period : String)
    (env : Env) (fs : FS)
    (hno : ∀ resp, env.httpGet (fullURL cfg parameter station period) = .ok resp →
      resp.statusCode ≠ 200) :
    (run cfg [parameter, station, period] env fs).exitCode = 1
      ∧ (run cfg [parameter, station, period] env fs).fs = fs
      ∧ ∀ e ∈ (run cfg [parameter, station, period] env fs).trace, e.isFileSystem = false := by
  cases hget : env.httpGet (fullURL cfg parameter station period) with
  | error err =>
    rw [run_get_error cfg parameter station period env fs err hget]
    simp [failure, Outcome.exitCode, Event.isFileSystem]
  | ok resp =>
    rw [run_bad_status cfg parameter station period env fs resp hget (hno resp hget)]
    simp [failure, Outcome.exitCode, Event.isFileSystem]

/-- Sample run for C4: a 404 answer. -/
theorem run_without_200_keeps_fs_witness :
    (run defaultConfig ["1", "159880", "latest-day"] notFoundEnv staleFS).exitCode = 1
      ∧ (run defaultConfig ["1", "159880", "latest-day"] notFoundEnv staleFS).fs = staleFS
      ∧ ∀ e ∈ (run defaultConfig ["1", "159880", "latest-day"] notFoundEnv staleFS).trace,
          e.isFileSystem = false :=
  run_without_200_keeps_fs defaultConfig "1" "159880" "latest-day" notFoundEnv staleFS
    (by intro resp h; cases h; decide)

/-- Status of `run` on three arguments: it returns or exits with 1. -/
theorem run_status (cfg : Config) (parameter station period : String) (env : Env) (fs : FS) :
    (run cfg [parameter, station, period] env fs).status = .returned
      ∨ (run cfg [parameter, station, period] env fs).status = .exited 1 := by
  simp only [run, List.getElem?_cons_zero, List.getElem?_cons_succ]
  cases env.httpGet _ with
  | error err => simp
  | ok resp =>
    by_cases hs : resp.statusCode = 200
    · simp only [hs]
      cases env.mkdirAll cfg.outputPath with
      | some err => simp
      | none =>
        simp only []
        cases env.create _ with
        | some err => simp
        | none => cases env.copy <;> simp
    · simp [hs]

theorem length_three {α : Type} (l : List α) (h : l.length = 3) : ∃ a b c, l = [a, b, c] := by
  match l, h with
  | [a, b, c], _ => exact ⟨a, b, c, rfl⟩

theorem main_of_length_ne (cfg : Config) (args : List String) (env : Env) (fs : FS)
    (h : args.length ≠ 3) :
    main cfg args env fs
      = failure fs [] ("accepts 3 arg(s), received " ++ toString args.length ++ "\n") := by
  simp [main, execute, exactArgs, h, failure]
  rfl

theorem main_of_three (cfg : Config) (parameter station period : String) (env : Env) (fs : FS) :
    main cfg [parameter, station, period] env fs = run cfg [parameter, station, period] env fs := by
  simp [main, execute, exactArgs]

/-- C5: with a number of positional arguments other than 3 the program
prints the usage error of the argument validator and exits with status 1
without any network call or file-system call; run is called only on exactly
three arguments, on which its indexing does not panic, so the program never
panics. -/
theorem main_rejects_wrong_arg_count (cfg : Config) (args : List String) (env : Env) (fs : FS) :
    (args.length ≠ 3 →
        (main cfg args env fs).exitCode = 1
        ∧ (main cfg args env fs).stdout
            = ["accepts 3 arg(s), received " ++ toString args.length ++ "\n"]
        ∧ (main cfg args env fs).fs = fs
        ∧ ∀ e ∈ (main cfg args env fs).trace, e.isNetwork = false ∧ e.isFileSystem = false)
      ∧ (∀ o, execute cfg args env fs = .ok o → args.length = 3 ∧ o = run cfg args env fs)
      ∧ (args.length = 3 → ∀ msg, (run cfg args env fs).status ≠ .panicked msg)
      ∧ (∀ msg, (main cfg args env fs).status ≠ .panicked msg) := by
  have hrun : args.length = 3 → ∀ msg, (run cfg args env fs).status ≠ .panicked msg := by
    intro h msg
    obtain ⟨a, b, c, rfl⟩ := length_three args h
    rcases run_status cfg a b c env fs with h | h <;> simp [h]
  refine ⟨?_, ?_, hrun, ?_⟩
  · intro h
    rw [main_of_length_ne cfg args env fs h]
    simp [failure, Outcome.exitCode, Outcome.stdout, Event.isNetwork, Event.isFileSystem]
  · intro o ho
    by_cases h : args.length = 3
    · simp [execute, exactArgs, h] at ho
      exact ⟨h, ho.symm⟩
    · simp [execute, exactArgs, h] at ho
  · intro msg
    by_cases h : args.length = 3
    · obtain ⟨a, b, c, rfl⟩ := length_three args h
      rw [main_of_three]
      exact hrun h msg
    · rw [main_of_length_ne cfg args env fs h]
      simp [failure]

/-- Sample run for C5: two positional arguments. -/
theorem main_rejects_wrong_arg_count_witness :
    (main defaultConfig ["1", "159880"] okEnv emptyFS).exitCode = 1
      ∧ (main defaultConfig ["1", "159880"] okEnv emptyFS).stdout
          = ["accepts 3 arg(s), received " ++ toString ["1", "159880"].length ++ "\n"]
      ∧ (main defaultConfig ["1", "159880"] okEnv emptyFS).fs = emptyFS
      ∧ ∀ e ∈ (main defaultConfig ["1", "159880"] okEnv emptyFS).trace,
          e.isNetwork = false ∧ e.isFileSystem = false :=
  (main_rejects_wrong_arg_count defaultConfig ["1", "159880"] okEnv emptyFS).1 (by decide)


theorem ne_of_head_ne {s t : String} (h : s.data.head? ≠ t.data.head?) : s ≠ t := by
  intro hst
  exact h (by rw [hst])

theorem successMessage_head (path : String) : (successMessage path).data.head? = some 'F' := by
  simp [successMessage, sprintf, sprintfAux]

theorem failure_texts_ne_success (err path : String) (n : Nat) :
    sprintf "Error downloading file: %v\n" [err] ≠ successMessage path
    ∧ sprintf "Bad status: %s\nCheck argument values\n" [err] ≠ successMessage path
    ∧ sprintf "Error creating output directory: %v\n" [err] ≠ successMessage path
    ∧ sprintf "Error creating output file: %v\n" [err] ≠ successMessage path
    ∧ sprintf "Error writing to file: %v\n" [err] ≠ successMessage path
    ∧ "accepts 3 arg(s), received " ++ toString n ++ "\n" ≠ successMessage path := by
  refine ⟨?_, ?_, ?_, ?_, ?_, ?_⟩ <;>
    · apply ne_of_head_ne
      rw [successMessage_head]
      simp [sprintf, sprintfAux]

theorem allStepsSucceed_three (cfg : Config) (a b c : String) (env : Env) :
    AllStepsSucceed cfg [a, b, c] env ↔
      ∃ resp, env.httpGet (fullURL cfg a b c) = .ok resp ∧ resp.statusCode = 200
        ∧ env.mkdirAll cfg.outputPath = none
        ∧ env.create (outputFilePath cfg a b c) = none ∧ env.copy = none := by
  constructor
  · rintro ⟨p, s, q, resp, hargs, h⟩
    simp only [List.cons.injEq, and_true] at hargs
    obtain ⟨rfl, rfl, rfl⟩ := hargs
    exact ⟨resp, h⟩
  · rintro ⟨resp, h⟩
    exact ⟨a, b, c, resp, rfl, h⟩

theorem not_allStepsSucceed_of_length (cfg : Config) (args : List String) (env : Env)
    (h : args.length ≠ 3) : ¬ AllStepsSucceed cfg args env := by
  rintro ⟨p, s, q, resp, rfl, -⟩
  exact h rfl


theorem outputFilePath_eq (cfg : Config) (parameter station period : String) :
    outputFilePath cfg parameter station period
      = filepathJoin cfg.outputPath (fileName cfg.ext parameter station period) := rfl

/-- Exit status and output of `run` on three arguments, path by path. -/
theorem run_exit_and_output (cfg : Config) (a b c : String) (env : Env) (fs : FS) :
    (AllStepsSucceed cfg [a, b, c] env
        ∧ (run cfg [a, b, c] env fs).exitCode = 0
        ∧ (run cfg [a, b, c] env fs).stdout = [successMessage (outputFilePath cfg a b c)])
      ∨ (¬ AllStepsSucceed cfg [a, b, c] env
        ∧ (run cfg [a, b, c] env fs).exitCode = 1
        ∧ ∀ path, successMessage path ∉ (run cfg [a, b, c] env fs).stdout) := by
  rw [allStepsSucceed_three]
  cases hget : env.httpGet (fullURL cfg a b c) with
  | error err =>
    right
    rw [run_get_error cfg a b c env fs err hget]
    have hne := fun path => Ne.symm (failure_texts_ne_success err path 0).1
    simp [failure, Outcome.exitCode, Outcome.stdout, hne]
  | ok resp =>
    by_cases hcode : resp.statusCode = 200
    · cases hdir : env.mkdirAll cfg.outputPath with
      | some err =>
        right
        rw [run_mkdir_error cfg a b c env fs resp err hget hcode hdir]
        have hne := fun path => Ne.symm (failure_texts_ne_success err path 0).2.2.1
        simp [failure, Outcome.exitCode, Outcome.stdout, hne]
      | none =>
        cases hcreate : env.create (outputFilePath cfg a b c) with
        | some err =>
          right
          rw [run_create_error cfg a b c env fs resp err hget hcode hdir hcreate]
          have hne := fun path => Ne.symm (failure_texts_ne_success err path 0).2.2.2.1
          simp [failure, Outcome.exitCode, Outcome.stdout, hne]
        | none =>
          cases hcopy : env.copy with
          | some p =>
            right
            obtain ⟨n, err⟩ := p
            rw [run_copy_error cfg a b c env fs resp n err hget hcode hdir hcreate hcopy]
            have hne := fun path => Ne.symm (failure_texts_ne_success err path 0).2.2.2.2.1
            simp [failure, Outcome.exitCode, Outcome.stdout, hne]
          | none =>
            left
            rw [run_success cfg a b c env fs resp hget hcode hdir hcreate hcopy]
            simp [Outcome.exitCode, Outcome.stdout, hcode]
    · right
      rw [run_bad_status cfg a b c env fs resp hget hcode]
      have hne := fun path => Ne.symm (failure_texts_ne_success resp.status path 0).2.1
      simp [failure, Outcome.exitCode, Outcome.stdout, hne, hcode]

/-- Exit status and output of `main`, for every argument list. -/
theorem main_exit_and_output (cfg : Config) (args : List String) (env : Env) (fs : FS) :
    (AllStepsSucceed cfg args env
        ∧ (main cfg args env fs).exitCode = 0
        ∧ ∃ a b c, args = [a, b, c]
            ∧ (main cfg args env fs).stdout = [successMessage (outputFilePath cfg a b c)])
      ∨ (¬ AllStepsSucceed cfg args env
        ∧ (main cfg args env fs).exitCode = 1
        ∧ ∀ path, successMessage path ∉ (main cfg args env fs).stdout) := by
  by_cases h : args.length = 3
  · obtain ⟨a, b, c, rfl⟩ := length_three args h
    rw [main_of_three]
    rcases run_exit_and_output cfg a b c env fs with ⟨h1, h2, h3⟩ | h'
    · exact Or.inl ⟨h1, h2, a, b, c, rfl, h3⟩
    · exact Or.inr h'
  · right
    refine ⟨not_allStepsSucceed_of_length cfg args env h, ?_⟩
    rw [main_of_length_ne cfg args env fs h]
    have hne := fun path => Ne.symm (failure_texts_ne_success "" path args.length).2.2.2.2.2
    simp [failure, Outcome.exitCode, Outcome.stdout, hne]

/-- C7: the exit code of the program is 0 exactly when every step succeeds
(three positional arguments, GET succeeds, status 200, directory ensured,
file created, copy completed) and 1 otherwise; on success the one line
printed is the success message with the output path, and on failure no
success message is printed. -/
theorem main_exit_code (cfg : Config) (args : List String) (env : Env) (fs : FS) :
    ((main cfg args env fs).exitCode = 0 ↔ AllStepsSucceed cfg args env)
      ∧ (¬ AllStepsSucceed cfg args env → (main cfg args env fs).exitCode = 1)
      ∧ (AllStepsSucceed cfg args env →
          ∃ parameter station period, args = [parameter, station, period]
            ∧ (main cfg args env fs).stdout
              = ["File downloaded successfully: "
                  ++ filepathJoin cfg.outputPath (fileName cfg.ext parameter station period)
                  ++ "\n"])
      ∧ (¬ AllStepsSucceed cfg args env →
          ∀ path, "File downloaded successfully: " ++ path ++ "\n"
            ∉ (main cfg args env fs).stdout) := by
  simp only [← successMessage_eq, ← outputFilePath_eq]
  rcases main_exit_and_output cfg args env fs with ⟨h1, h2, h3⟩ | ⟨h1, h2, h3⟩
  · exact ⟨⟨fun _ => h1, fun _ => h2⟩, fun h => absurd h1 h, fun _ => h3, fun h => absurd h1 h⟩
  · refine ⟨⟨fun h => ?_, fun h => absurd h h1⟩, fun _ => h2, fun h => absurd h h1, fun _ => h3⟩
    rw [h2] at h
    exact absurd h (by decide)

/-- Sample runs for C7: a 404 answer exits with 1, a complete download with 0. -/
theorem main_exit_code_witness :
    (main defaultConfig ["1", "159880", "latest-day"] notFoundEnv emptyFS).exitCode = 1
      ∧ (main defaultConfig ["1", "159880", "latest-day"] okEnv emptyFS).exitCode = 0 :=
  ⟨(main_exit_code defaultConfig ["1", "159880", "latest-day"] notFoundEnv emptyFS).2.1
      (by
        rw [allStepsSucceed_three]
        rintro ⟨resp, hget, hcode, -⟩
        cases hget
        exact absurd hcode (by decide)),
    (main_exit_code defaultConfig ["1", "159880", "latest-day"] okEnv emptyFS).1.2
      ⟨"1", "159880", "latest-day", _, rfl, rfl, rfl, rfl, rfl, rfl⟩⟩


/-- Evaluation for C6: the copy breaks after the output file was created;
run prints the error and exits with status 1 through os.Exit, and the
deferred close of the file is never called, although the same file is
closed when the copy completes. -/
theorem run_copy_failure_skips_close :
    Event.create "smhi_metobs_1_159880_latest-day.csv"
        ∈ (run defaultConfig ["1", "159880", "latest-day"] brokenCopyEnv emptyFS).trace
      ∧ (∀ path, Event.closeFile path
          ∉ (run defaultConfig ["1", "159880", "latest-day"] brokenCopyEnv emptyFS).trace)
      ∧ (run defaultConfig ["1", "159880", "latest-day"] brokenCopyEnv emptyFS).status = .exited 1
      ∧ Event.closeFile "smhi_metobs_1_159880_latest-day.csv"
          ∈ (run defaultConfig ["1", "159880", "latest-day"] okEnv emptyFS).trace := by
  refine ⟨by decide, ?_, by decide, by decide⟩
  intro path
  rw [run_copy_error defaultConfig "1" "159880" "latest-day" brokenCopyEnv emptyFS
    { status := "200 OK", statusCode := 200, body := [104, 105, 10] } 2
    "write: no space left on device" rfl rfl rfl rfl rfl]
  simp [failure]

/-- Without the truncation of `os.Create`, a shorter body leaves the tail
of the old content in place. -/
theorem writeAt_keeps_tail :
    (staleFS.writeAt "smhi_metobs_1_159880_latest-day.csv" 0 [104, 105, 10]).files
        "smhi_metobs_1_159880_latest-day.csv"
      = some [104, 105, 10, 4, 5] := by
  decide

theorem fs_after_success_twice (fs : FS) (dir path : String) (bytes : List Byte) :
    (((((fs.mkdirAll dir).create path).writeAt path 0 bytes).mkdirAll dir).create path).writeAt
        path 0 bytes
      = ((fs.mkdirAll dir).create path).writeAt path 0 bytes := by
  simp [FS.mkdirAll, FS.create, FS.writeAt]

/-- C8: whatever the output file held before, a successful run leaves it
holding exactly the response body b, and a second successful run with the
same body leaves the file system as the first one left it. -/
theorem run_overwrite_idempotent (cfg : Config) (parameter station period : String)
    (env env2 : Env) (fs : FS) (resp resp2 : Response)
    (hget : env.httpGet (fullURL cfg parameter station period) = .ok resp)
    (hcode : resp.statusCode = 200)
    (hdir : env.mkdirAll cfg.outputPath = none)
    (hcreate : env.create (outputFilePath cfg parameter station period) = none)
    (hcopy : env.copy = none)
    (hget2 : env2.httpGet (fullURL cfg parameter station period) = .ok resp2)
    (hcode2 : resp2.statusCode = 200)
    (hdir2 : env2.mkdirAll cfg.outputPath = none)
    (hcreate2 : env2.create (outputFilePath cfg parameter station period) = none)
    (hcopy2 : env2.copy = none)
    (hbody : resp2.body = resp.body) :
    (run cfg [parameter, station, period] env fs).fs.files
        (outputFilePath cfg parameter station period) = some resp.body
      ∧ (run cfg [parameter, station, period] env2
            (run cfg [parameter, station, period] env fs).fs).fs
          = (run cfg [parameter, station, period] env fs).fs := by
  rw [run_success cfg parameter station period env2 _ resp2 hget2 hcode2 hdir2 hcreate2 hcopy2,
    run_success cfg parameter station period env fs resp hget hcode hdir hcreate hcopy, hbody]
  exact ⟨files_create_writeAt _ _ _, fs_after_success_twice _ _ _ _⟩

/-- Sample runs for C8: two complete downloads over a five-byte file. -/
theorem run_overwrite_idempotent_witness :
    (run defaultConfig ["1", "159880", "latest-day"] okEnv staleFS).fs.files
        (outputFilePath defaultConfig "1" "159880" "latest-day") = some [104, 105, 10]
      ∧ (run defaultConfig ["1", "159880", "latest-day"] okEnv
            (run defaultConfig ["1", "159880", "latest-day"] okEnv staleFS).fs).fs
          = (run defaultConfig ["1", "159880", "latest-day"] okEnv staleFS).fs :=
  run_overwrite_idempotent defaultConfig "1" "159880" "latest-day" okEnv okEnv staleFS
    { status := "200 OK", statusCode := 200, body := [104, 105, 10] }
    { status := "200 OK", statusCode := 200, body := [104, 105, 10] }
    rfl rfl rfl rfl rfl rfl rfl rfl rfl rfl rfl


theorem keeps_refl (fs : FS) : fs.Keeps fs := ⟨fun _ h => h, fun _ h => h⟩

theorem keeps_trans {a b c : FS} (h1 : a.Keeps b) (h2 : b.Keeps c) : a.Keeps c :=
  ⟨fun x h => h2.1 x (h1.1 x h), fun x h => h2.2 x (h1.2 x h)⟩

theorem keeps_mkdirAll (fs : FS) (dir : String) : fs.Keeps (fs.mkdirAll dir) := by
  refine ⟨fun x h => h, fun x h => ?_⟩
  by_cases hx : x = dir
  · simp [FS.mkdirAll, hx]
  · simpa [FS.mkdirAll, Function.update_noteq hx] using h

theorem keeps_create (fs : FS) (path : String) : fs.Keeps (fs.create path) := by
  refine ⟨fun x h => ?_, fun x h => h⟩
  by_cases hx : x = path
  · simp [FS.create, hx]
  · simpa [FS.create, Function.update_noteq hx] using h

theorem keeps_writeAt (fs : FS) (path : String) (off : Nat) (bytes : List Byte) :
    fs.Keeps (fs.writeAt path off bytes) := by
  refine ⟨fun x h => ?_, fun x h => h⟩
  by_cases hx : x = path
  · simp [FS.writeAt, hx]
  · simpa [FS.writeAt, Function.update_noteq hx] using h

/-- No path of `run` removes a file or a directory. -/
theorem run_keeps (cfg : Config) (args : List String) (env : Env) (fs : FS) :
    fs.Keeps (run cfg args env fs).fs := by
  rcases args with _ | ⟨a, _ | ⟨b, _ | ⟨c, rest⟩⟩⟩
  · exact keeps_refl fs
  · exact keeps_refl fs
  · exact keeps_refl fs
  · simp only [run, List.getElem?_cons_zero, List.getElem?_cons_succ]
    cases env.httpGet _ with
    | error err => exact keeps_refl fs
    | ok resp =>
      by_cases hs : resp.statusCode = 200
      · simp only [hs]
        cases env.mkdirAll cfg.outputPath with
        | some err => exact keeps_refl fs
        | none =>
          simp only []
          cases env.create _ with
          | some err => exact keeps_mkdirAll fs _
          | none =>
            cases env.copy with
            | some p =>
              exact keeps_trans (keeps_mkdirAll fs _)
                (keeps_trans (keeps_create _ _) (keeps_writeAt _ _ _ _))
            | none =>
              exact keeps_trans (keeps_mkdirAll fs _)
                (keeps_trans (keeps_create _ _) (keeps_writeAt _ _ _ _))
      · simp only [ne_eq, hs, not_false_eq_true, if_true]
        exact keeps_refl fs

/-- What `run` created is there when it stops, on every path: the
directory of a successful `os.MkdirAll` and the file of a successful
`os.Create`. -/
theorem run_keeps_created (cfg : Config) (args : List String) (env : Env) (fs : FS) :
    (env.mkdirAll cfg.outputPath = none →
        Event.mkdirAll cfg.outputPath 0o755 ∈ (run cfg args env fs).trace →
        (run cfg args env fs).fs.dirs cfg.outputPath = true)
      ∧ (∀ path, env.create path = none → Event.create path ∈ (run cfg args env fs).trace →
          ((run cfg args env fs).fs.files path).isSome = true) := by
  rcases args with _ | ⟨a, _ | ⟨b, _ | ⟨c, rest⟩⟩⟩
  · simp [run]
  · simp [run]
  · simp [run]
  · simp only [run, List.getElem?_cons_zero, List.getElem?_cons_succ]
    cases env.httpGet _ with
    | error err => simp
    | ok resp =>
      by_cases hs : resp.statusCode = 200
      · simp only [hs]
        cases hdir : env.mkdirAll cfg.outputPath with
        | some err => simp
        | none =>
          simp only []
          cases hcreate : env.create (outputFilePath cfg a b c) with
          | some err =>
            refine ⟨fun _ _ => by simp [FS.mkdirAll], fun path hp hmem => ?_⟩
            simp at hmem
            rw [hmem, hcreate] at hp
            exact absurd hp (by simp)
          | none =>
            cases env.copy with
            | some p =>
              refine ⟨fun _ _ => by simp [FS.mkdirAll, FS.create, FS.writeAt],
                fun path _ hmem => ?_⟩
              simp at hmem
              simp [hmem, FS.writeAt]
            | none =>
              refine ⟨fun _ _ => by simp [FS.mkdirAll, FS.create, FS.writeAt],
                fun path _ hmem => ?_⟩
              simp at hmem
              simp [hmem, FS.writeAt]
      · simp [hs]

/-- C9: when the copy fails after the output file was created, run exits
with status 1 and the output file stays, holding the prefix of the body
written before the failure, and the output directory stays; no path of
run, failing or not, removes a file or a directory that existed; when the
file creation fails after the directory was created, run exits with status
1, the created directory stays and the files are what they were; and on
every path the directory of a successful MkdirAll and the file of a
successful Create are there when run stops. -/
theorem run_copy_failure_leaves_written_bytes (cfg : Config) (parameter station period : String)
    (env : Env) (fs : FS) (resp : Response) (n : Nat) (err : String)
    (hget : env.httpGet (fullURL cfg parameter station period) = .ok resp)
    (hcode : resp.statusCode = 200)
    (hdir : env.mkdirAll cfg.outputPath = none)
    (hcreate : env.create (outputFilePath cfg parameter station period) = none)
    (hcopy : env.copy = some (n, err)) :
    (run cfg [parameter, station, period] env fs).exitCode = 1
      ∧ (run cfg [parameter, station, period] env fs).fs.files
          (outputFilePath cfg parameter station period) = some (resp.body.take n)
      ∧ resp.body.take n <+: resp.body
      ∧ (run cfg [parameter, station, period] env fs).fs.dirs cfg.outputPath = true
      ∧ (∀ (cfg2 : Config) (args : List String) (env2 : Env) (fs2 : FS),
          (∀ x, (fs2.files x).isSome → ((run cfg2 args env2 fs2).fs.files x).isSome)
          ∧ (∀ x, fs2.dirs x = true → (run cfg2 args env2 fs2).fs.dirs x = true))
      ∧ (∀ (cfg2 : Config) (p2 s2 q2 : String) (env2 : Env) (fs2 : FS) (resp2 : Response)
          (err2 : String),
          env2.httpGet (fullURL cfg2 p2 s2 q2) = .ok resp2 → resp2.statusCode = 200 →
          env2.mkdirAll cfg2.outputPath = none →
          env2.create (outputFilePath cfg2 p2 s2 q2) = some err2 →
          (run cfg2 [p2, s2, q2] env2 fs2).exitCode = 1
          ∧ (run cfg2 [p2, s2, q2] env2 fs2).fs.dirs cfg2.outputPath = true
          ∧ (∀ x, x ≠ cfg2.outputPath → (run cfg2 [p2, s2, q2] env2 fs2).fs.dirs x = fs2.dirs x)
          ∧ (run cfg2 [p2, s2, q2] env2 fs2).fs.files = fs2.files)
      ∧ (∀ (cfg2 : Config) (args : List String) (env2 : Env) (fs2 : FS),
          (env2.mkdirAll cfg2.outputPath = none →
            Event.mkdirAll cfg2.outputPath 0o755 ∈ (run cfg2 args env2 fs2).trace →
            (run cfg2 args env2 fs2).fs.dirs cfg2.outputPath = true)
          ∧ (∀ path, env2.create path = none →
            Event.create path ∈ (run cfg2 args env2 fs2).trace →
            ((run cfg2 args env2 fs2).fs.files path).isSome = true)) := by
  refine ⟨?_, ?_, List.take_prefix _ _, ?_,
    fun cfg2 args env2 fs2 => run_keeps cfg2 args env2 fs2, ?_,
    fun cfg2 args env2 fs2 => run_keeps_created cfg2 args env2 fs2⟩
  · rw [run_copy_error cfg parameter station period env fs resp n err hget hcode hdir hcreate hcopy]
    simp [failure, Outcome.exitCode]
  · rw [run_copy_error cfg parameter station period env fs resp n err hget hcode hdir hcreate hcopy]
    exact files_create_writeAt _ _ _
  · rw [run_copy_error cfg parameter station period env fs resp n err hget hcode hdir hcreate hcopy]
    simp [failure, FS.writeAt, FS.create, FS.mkdirAll]
  · intro cfg2 p2 s2 q2 env2 fs2 resp2 err2 hget2 hcode2 hdir2 hcreate2
    rw [run_create_error cfg2 p2 s2 q2 env2 fs2 resp2 err2 hget2 hcode2 hdir2 hcreate2]
    refine ⟨by simp [failure, Outcome.exitCode], by simp [failure, FS.mkdirAll], ?_,
      by simp [failure, FS.mkdirAll]⟩
    intro x hx
    simp [failure, FS.mkdirAll, Function.update_noteq hx]

/-- Sample runs for C9: the copy breaks after two of three bytes; the file
creation is refused in an empty file system. -/
theorem run_copy_failure_leaves_written_bytes_witness :
    ((run defaultConfig ["1", "159880", "latest-day"] brokenCopyEnv staleFS).exitCode = 1
      ∧ (run defaultConfig ["1", "159880", "latest-day"] brokenCopyEnv staleFS).fs.files
          (outputFilePath defaultConfig "1" "159880" "latest-day") = some [104, 105])
      ∧ ((run defaultConfig ["1", "159880", "latest-day"] createDeniedEnv emptyFS).exitCode = 1
        ∧ (run defaultConfig ["1", "159880", "latest-day"] createDeniedEnv emptyFS).fs.dirs
            defaultConfig.outputPath = true) :=
  have h := run_copy_failure_leaves_written_bytes defaultConfig "1" "159880" "latest-day"
    brokenCopyEnv staleFS { status := "200 OK", statusCode := 200, body := [104, 105, 10] } 2
    "write: no space left on device" rfl rfl rfl rfl rfl
  have h2 := h.2.2.2.2.2.1 defaultConfig "1" "159880" "latest-day" createDeniedEnv emptyFS
    { status := "200 OK", statusCode := 200, body := [104, 105, 10] }
    "open: permission denied" rfl rfl rfl rfl
  ⟨⟨h.1, h.2.1⟩, ⟨h2.1, h2.2.1⟩⟩

/-! ## Injectivity of the file name -/

theorem append_cons_inj_of_not_mem {α : Type} {c : α} :
    ∀ {a a2 r r2 : List α}, c ∉ a → c ∉ a2 → a ++ c :: r = a2 ++ c :: r2 → a = a2 ∧ r = r2
  | [], [], _, _, _, _, h => by simpa using h
  | [], y :: a2, _, _, _, h2, h => by
    simp only [List.nil_append, List.cons_append, List.cons.injEq] at h
    exact absurd (h.1 ▸ List.mem_cons_self _ _) h2
  | x :: a, [], _, _, h1, _, h => by
    simp only [List.nil_append, List.cons_append, List.cons.injEq] at h
    exact absurd (h.1 ▸ List.mem_cons_self _ _) h1
  | x :: a, y :: a2, r, r2, h1, h2, h => by
    simp only [List.cons_append, List.cons.injEq] at h
    obtain ⟨hxy, ht⟩ := h
    have ih := append_cons_inj_of_not_mem (fun hc => h1 (List.mem_cons_of_mem _ hc))
      (fun hc => h2 (List.mem_cons_of_mem _ hc)) ht
    exact ⟨by rw [hxy, ih.1], ih.2⟩

theorem append_cons_inj_of_not_mem_right {α : Type} {c : α} {a a2 r r2 : List α}
    (h1 : c ∉ r) (h2 : c ∉ r2) (h : a ++ c :: r = a2 ++ c :: r2) : a = a2 ∧ r = r2 := by
  have hrev := congrArg List.reverse h
  simp only [List.reverse_append, List.reverse_cons, List.append_assoc, List.singleton_append]
    at hrev
  have := append_cons_inj_of_not_mem (by simpa using h1) (by simpa using h2) hrev
  exact ⟨List.reverse_injective this.2, List.reverse_injective this.1⟩

/-- C10: if no parameter and no station contains an underscore and no
extension contains a dot, equal file names come from equal descriptors;
without that condition parameter "1_2", station "3" and parameter "1",
station "2_3" give the same file name, hence the same output path. -/
theorem fileName_injective_on_wellformed :
    (∀ parameter station period ext parameter2 station2 period2 ext2 : String,
        '_' ∉ parameter.data → '_' ∉ station.data → '.' ∉ ext.data →
        '_' ∉ parameter2.data → '_' ∉ station2.data → '.' ∉ ext2.data →
        fileName ext parameter station period = fileName ext2 parameter2 station2 period2 →
        parameter = parameter2 ∧ station = station2 ∧ period = period2 ∧ ext = ext2)
      ∧ (fileName "csv" "1_2" "3" "latest-day" = fileName "csv" "1" "2_3" "latest-day"
          ∧ ("1_2", "3") ≠ (("1", "2_3") : String × String)
          ∧ ∀ cfg : Config, outputFilePath cfg "1_2" "3" "latest-day"
              = outputFilePath cfg "1" "2_3" "latest-day") := by
  refine ⟨?_, by decide, by decide, fun cfg => ?_⟩
  · intro p s q e p2 s2 q2 e2 hp hs he hp2 hs2 he2 h
    rw [fileName_eq, fileName_eq] at h
    have hd := congrArg String.data h
    simp only [String.data_append] at hd
    simp [List.append_assoc] at hd
    obtain ⟨hpp, hd⟩ := append_cons_inj_of_not_mem hp hp2 hd
    obtain ⟨hss, hd⟩ := append_cons_inj_of_not_mem hs hs2 hd
    obtain ⟨hqq, hee⟩ := append_cons_inj_of_not_mem_right he he2 hd
    exact ⟨String.ext hpp, String.ext hss, String.ext hqq, String.ext hee⟩
  · have h : fileName cfg.ext "1_2" "3" "latest-day" = fileName cfg.ext "1" "2_3" "latest-day" := by
      rw [fileName_eq, fileName_eq]
      apply String.ext
      simp
    rw [outputFilePath_eq, outputFilePath_eq, h]

/-- Sample descriptors for C10. -/
theorem fileName_injective_on_wellformed_witness :
    fileName "csv" "1" "159880" "latest-day" = fileName "csv" "1" "159880" "latest-day"
      ∧ ("1" = "1" ∧ "159880" = "159880" ∧ "latest-day" = "latest-day" ∧ "csv" = "csv") :=
  ⟨rfl, fileName_injective_on_wellformed.1 "1" "159880" "latest-day" "csv" "1" "159880"
    "latest-day" "csv" (by decide) (by decide) (by decide) (by decide) (by decide) (by decide)
    rfl⟩

end Getmetobs
